import Mathlib

/-!
# Verification of the same-sex-marriage choropleth pipeline

Shallow embedding of the data-cleaning pipeline in `src/create_plot.py`.

The script scrapes a two-column table (`year`, `country`), splits each
country cell into country tokens, expands rows, applies a manual alias
table, drops `"Pending"` rows, coerces years to integers, and resolves
country names to ISO-3 codes via an exact-name lookup.

Modelling conventions:
* strings are `String` (a wrapper around `List Char`); the string
  functions from the Python standard library that the script uses
  (`str.strip`, `str.replace`, `int(...)`, `re.split`) are embedded
  below over `List Char`; whitespace is the six ASCII whitespace
  characters (the inputs handled by the pipeline are ASCII);
* a pandas `DataFrame` is a list of rows; a missing value (`NaN`) is
  `Option.none`;
* the fallible `astype(int)` step returns `Option` (`none` = the
  `ValueError` the spec calls `FormatError`);
* the external `pycountry` catalog is embedded as a finite association
  list restricted to the names this development mentions (a name absent
  from the list models a lookup miss);
* in-place mutation of the caller's `DataFrame` (via `inplace=True`
  `dropna` and column assignment) is modelled by explicit state
  passing: for each mutating function there is a companion definition
  giving the state of the argument object after the call returns.
-/

namespace CreatePlot

/-- The six ASCII whitespace characters: the (ASCII fragment of the)
character class stripped by Python `str.strip()` and matched by the
regex class `\s`. -/
def isPySpace (c : Char) : Bool :=
  c == ' ' || c == '\t' || c == '\n' || c == '\r' || c == '\u000B' || c == '\u000C'

/-- Python `str.lstrip()` on char lists: drop leading whitespace. -/
def lstripPy (l : List Char) : List Char :=
  l.dropWhile isPySpace

/-- Python `str.rstrip()` on char lists: drop trailing whitespace. -/
def rstripPy (l : List Char) : List Char :=
  (l.reverse.dropWhile isPySpace).reverse

/-- Python `str.strip()` on char lists: drop leading and trailing
whitespace. -/
def pyStrip (l : List Char) : List Char :=
  rstripPy (lstripPy l)

/-- The characters of the literal tag `"[nationwide]"` removed by
`get_countries_from_string`. -/
def nationwideChars : List Char :=
  ['[', 'n', 'a', 't', 'i', 'o', 'n', 'w', 'i', 'd', 'e', ']']

/-- Python `str.replace('[nationwide]', '')` on char lists: scan left to
right; at each position, if the tag starts here, skip its 12 characters
and continue after them, otherwise keep the character.  The first
argument is fuel (one unit per scan step, so `l.length` suffices);
running out of fuel returns the remaining input unchanged. -/
def removeNatAux : Nat → List Char → List Char
  | _, [] => []
  | 0, l => l
  | fuel + 1, c :: rest =>
    if (c :: rest).take 12 = nationwideChars then removeNatAux fuel (rest.drop 11)
    else c :: removeNatAux fuel rest

/-- Removal of every occurrence of the literal `"[nationwide]"`. -/
def removeNationwide (l : List Char) : List Char :=
  removeNatAux l.length l

/-- Matching of the tail `.*?\)` of the split pattern, starting just
after the `(`: scan forward for the nearest `)`; `.` does not match a
newline, so an intervening `'\n'` (or the end of input) makes the match
fail.  On success, returns the input after the `)`. -/
def matchParen : List Char → Option (List Char)
  | [] => none
  | c :: rest =>
    if c = ')' then some rest
    else if c = '\n' then none
    else matchParen rest

/-- Attempt to match the split pattern `\s\(.*?\)` at the position where
`c` is the current character and `rest` the remaining input: `c` must be
whitespace, the next character must be `(`, and a closing `)` must be
reachable.  Returns the input after the match. -/
def trySplit (c : Char) (rest : List Char) : Option (List Char) :=
  if isPySpace c then
    match rest with
    | d :: rest2 => if d = '(' then matchParen rest2 else none
    | [] => none
  else none

/-- `re.split(r'\s\(.*?\)', s)`: scan left to right; each leftmost,
non-overlapping match of the pattern ends the current fragment, and
scanning resumes after the match.  `acc` is the current fragment,
reversed.  The first argument is fuel (one unit per scan step, so the
input length suffices). -/
def splitFuel : Nat → List Char → List Char → List (List Char)
  | _, [], acc => [acc.reverse]
  | 0, l, acc => [acc.reverse ++ l]
  | fuel + 1, c :: rest, acc =>
    match trySplit c rest with
    | some after => acc.reverse :: splitFuel fuel after []
    | none => splitFuel fuel rest (c :: acc)

/-- `re.split(r'\s\(.*?\)', l)` on char lists. -/
def pySplit (l : List Char) : List (List Char) :=
  splitFuel l.length l []

/-- `get_countries_from_string` (src/create_plot.py lines 14-23):
split on `\s\(.*?\)`, keep the fragments whose `strip()` is non-empty,
and map each kept fragment to `fragment.replace('[nationwide]', '').strip()`. -/
def get_countries_from_string (s : String) : List String :=
  ((pySplit s.data).filter (fun f => pyStrip f ≠ [])).map
    (fun f => String.mk (pyStrip (removeNationwide f)))

/-- One record after row expansion and year coercion
(`{year: integer, country: string}`). -/
structure ExpandedRecord where
  year : Int
  country : String
deriving DecidableEq, Repr

/-- One record after ISO-code resolution and the final `dropna` (the
`iso_code` column is non-null in every surviving row). -/
structure ResolvedRecord where
  year : Int
  country : String
  iso_code : String
deriving DecidableEq, Repr

/-- Value of a digit string, most significant digit first. -/
def digitsToNat (l : List Char) : Nat :=
  l.foldl (fun acc c => acc * 10 + (c.toNat - '0'.toNat)) 0

/-- Python `int(s)` for a string, as used by `astype(int)` on a column
of strings: strip surrounding whitespace, allow one optional sign, then
require a non-empty run of decimal digits; anything else raises
(`none`).  (Digit-group underscores are not modelled; no input here
contains them.) -/
def parseYear (s : String) : Option Int :=
  match pyStrip s.data with
  | '-' :: ds => if ds ≠ [] ∧ ds.all Char.isDigit then some (-(digitsToNat ds : Int)) else none
  | '+' :: ds => if ds ≠ [] ∧ ds.all Char.isDigit then some (digitsToNat ds : Int) else none
  | ds => if ds ≠ [] ∧ ds.all Char.isDigit then some (digitsToNat ds : Int) else none

/-- `same_sex_df.dropna(axis=0)` on the raw two-column frame: keep the
rows in which both cells are present. -/
def dropnaRows : List (Option String × Option String) → List (String × String)
  | [] => []
  | (some y, some c) :: rest => (y, c) :: dropnaRows rest
  | _ :: rest => dropnaRows rest

/-- Lines 53-55 of `clean_same_sex_marriage_data`: map the country cell
to its token list, `explode` it (one row per token, year copied
unchanged), and drop the `NaN` rows that `explode` produces for empty
token lists. -/
def explodeRows : List (String × String) → List (String × String)
  | [] => []
  | (y, c) :: rest => (get_countries_from_string c).map (fun t => (y, t)) ++ explodeRows rest

/-- The manual alias table (`.replace` dict, lines 57-60): an exact-value
substitution on the country column. -/
def aliasCountry (c : String) : String :=
  if c = "England and Wales" then "United Kingdom"
  else if c = "Taiwan" then "Taiwan, Province of China"
  else c

/-- Application of the manual alias table to every row. -/
def aliasRows (l : List (String × String)) : List (String × String) :=
  l.map (fun p => (p.1, aliasCountry p.2))

/-- `same_sex_df.loc[same_sex_df['year'] != 'Pending']` (line 61): drop
the rows whose year cell is the literal sentinel `"Pending"`. -/
def filterPendingRows (l : List (String × String)) : List (String × String) :=
  l.filter (fun p => p.1 ≠ "Pending")

/-- `same_sex_df['year'].astype(int)` (line 62): coerce every year cell
to an integer; the first non-numeric cell raises (`none`). -/
def coerceYears : List (String × String) → Option (List ExpandedRecord)
  | [] => some []
  | (y, c) :: rest =>
    match parseYear y with
    | none => none
    | some n => (coerceYears rest).map (fun l => ⟨n, c⟩ :: l)

/-- `clean_same_sex_marriage_data` (lines 45-66): dropna, token split +
explode + dropna, alias substitution, `"Pending"` filter, year coercion.
`none` models the `ValueError`/`FormatError` raised by `astype(int)`. -/
def clean_same_sex_marriage_data (rows : List (Option String × Option String)) :
    Option (List ExpandedRecord) :=
  coerceYears (filterPendingRows (aliasRows (explodeRows (dropnaRows rows))))

/-- State of the caller's `DataFrame` object after
`clean_same_sex_marriage_data` returns: line 52 (`dropna(...,
inplace=True)`) and lines 53-54 (column assignment) mutate the argument
object in place, replacing each country cell by its token list; line 55
rebinds the local name to a fresh `explode(...).reset_index()` object,
so no later operation of the function touches the caller's object. -/
def clean_caller_state (rows : List (Option String × Option String)) :
    List (Option String × Option (List String)) :=
  (rows.filter (fun p => p.1.isSome && p.2.isSome)).map
    (fun p => (p.1, p.2.map get_countries_from_string))

/-- The exact-match name → alpha_3 index of the external `pycountry`
ISO 3166-1 catalog, restricted to the country names this development
mentions.  A name absent from this list models a lookup miss (for which
`pycountry.countries.get(name=...)` returns `None`). -/
def pycountryCatalog : List (String × String) :=
  [("Netherlands", "NLD"),
   ("Canada", "CAN"),
   ("Spain", "ESP"),
   ("Portugal", "PRT"),
   ("United Kingdom", "GBR"),
   ("Taiwan, Province of China", "TWN")]

/-- `get_iso_code_from_country` (lines 69-81): exact-name catalog
lookup; on a miss, `pycountry` returns `None`, the `.alpha_3` access
raises `AttributeError`, and the handler returns `None`. -/
def get_iso_code_from_country (country : String) : Option String :=
  (pycountryCatalog.find? (fun e => e.1 == country)).map (fun e => e.2)

/-- `add_iso_code_to_data` (lines 84-97): assign the `iso_code` column
and drop (final `dropna`) the rows where the lookup missed.  The
returned object is the same object the caller passed (the function
mutates it in place), so this is also the caller's state after the
call. -/
def add_iso_code_to_data (l : List ExpandedRecord) : List ResolvedRecord :=
  l.filterMap (fun r =>
    (get_iso_code_from_country r.country).map (fun code => ⟨r.year, r.country, code⟩))

/-- The diagnostic list of unmatched country names (lines 90-94):
`sorted(list(...))` over the country cells whose ISO lookup missed. -/
def unmatched_countries_str (l : List ExpandedRecord) : List String :=
  ((l.map ExpandedRecord.country).filter
    (fun c => (get_iso_code_from_country c).isNone)).insertionSort (fun a b => a ≤ b)

/-- The cleaning stage followed by the resolution stage, as composed in
`main` (lines 121-125). -/
def pipeline (rows : List (Option String × Option String)) :
    Option (List ResolvedRecord) :=
  (clean_same_sex_marriage_data rows).map add_iso_code_to_data

/-! ## Properties of the regex-split embedding -/

theorem matchParen_length : ∀ l r : List Char, matchParen l = some r → r.length < l.length := by
  intro l
  induction l with
  | nil => intro r h; simp [matchParen] at h
  | cons c rest ih =>
    intro r h
    rw [matchParen] at h
    by_cases h1 : c = ')'
    · rw [if_pos h1] at h
      injection h with h
      subst h
      simp
    · rw [if_neg h1] at h
      by_cases h2 : c = '\n'
      · rw [if_pos h2] at h
        exact absurd h (by simp)
      · rw [if_neg h2] at h
        exact Nat.lt_trans (ih r h) (by simp)

theorem trySplit_length {c : Char} {rest after : List Char}
    (h : trySplit c rest = some after) : after.length < rest.length := by
  by_cases hc : isPySpace c
  · cases rest with
    | nil => simp [trySplit, hc] at h
    | cons d rest2 =>
      by_cases hd : d = '('
      · simp only [trySplit, hc, if_pos, hd] at h
        exact Nat.lt_trans (matchParen_length rest2 after h) (by simp)
      · simp [trySplit, hc, hd] at h
  · simp [trySplit, hc] at h

theorem trySplit_none_head {c : Char} {l : List Char}
    (h : l.head? ≠ some '(') : trySplit c l = none := by
  by_cases hc : isPySpace c
  · cases l with
    | nil => simp [trySplit, hc]
    | cons d l2 =>
      have hd : d ≠ '(' := by simpa using h
      simp [trySplit, hc, hd]
  · simp [trySplit, hc]

theorem splitFuel_nil (f : Nat) (acc : List Char) : splitFuel f [] acc = [acc.reverse] := by
  cases f <;> rfl

theorem splitFuel_cons_none {c : Char} {rest : List Char} (h : trySplit c rest = none)
    (f : Nat) (acc : List Char) :
    splitFuel (f + 1) (c :: rest) acc = splitFuel f rest (c :: acc) := by
  simp [splitFuel, h]

theorem splitFuel_cons_some {c : Char} {rest after : List Char}
    (h : trySplit c rest = some after) (f : Nat) (acc : List Char) :
    splitFuel (f + 1) (c :: rest) acc = acc.reverse :: splitFuel f after [] := by
  simp [splitFuel, h]

theorem splitFuel_congr :
    ∀ (n f g : Nat) (l acc : List Char), l.length ≤ n → l.length ≤ f → l.length ≤ g →
      splitFuel f l acc = splitFuel g l acc := by
  intro n
  induction n with
  | zero =>
    intro f g l acc h1 _ _
    have : l = [] := List.eq_nil_of_length_eq_zero (Nat.le_zero.mp h1)
    subst this
    simp [splitFuel_nil]
  | succ n ih =>
    intro f g l acc h1 h2 h3
    cases l with
    | nil => simp [splitFuel_nil]
    | cons c rest =>
      simp only [List.length_cons] at h1 h2 h3
      cases f with
      | zero => omega
      | succ f' =>
        cases g with
        | zero => omega
        | succ g' =>
          cases h : trySplit c rest with
          | none =>
            rw [splitFuel_cons_none h, splitFuel_cons_none h]
            exact ih f' g' rest (c :: acc) (by omega) (by omega) (by omega)
          | some after =>
            rw [splitFuel_cons_some h, splitFuel_cons_some h]
            have hl := trySplit_length h
            exact congrArg _ (ih f' g' after [] (by omega) (by omega) (by omega))

theorem splitFuel_scan :
    ∀ (A : List Char), (∀ c ∈ A, c ≠ '(') →
      ∀ (s acc : List Char) (f : Nat), A.length + s.length ≤ f → s.head? ≠ some '(' →
        splitFuel f (A ++ s) acc = splitFuel (f - A.length) s (A.reverse ++ acc) := by
  intro A
  induction A with
  | nil => intro _ s acc f _ _; simp
  | cons c A' ih =>
    intro hA s acc f hf hs
    cases f with
    | zero => simp at hf
    | succ f' =>
      have hhead : (A' ++ s).head? ≠ some '(' := by
        cases A' with
        | nil => simpa using hs
        | cons a A'' => simpa using hA a (by simp)
      have hstep := splitFuel_cons_none (c := c) (trySplit_none_head (c := c) hhead) f' acc
      rw [List.cons_append, hstep,
        ih (fun d hd => hA d (by simp [hd])) s (c :: acc) f'
          (by simp only [List.length_cons] at hf; omega) hs]
      simp only [List.length_cons, List.reverse_cons, Nat.succ_sub_succ]
      rw [List.append_assoc]
      rfl

theorem matchParen_through :
    ∀ (x s : List Char), (∀ c ∈ x, c ≠ ')' ∧ c ≠ '\n') →
      matchParen (x ++ ')' :: s) = some s := by
  intro x
  induction x with
  | nil => intro s _; simp [matchParen]
  | cons c x' ih =>
    intro s hx
    obtain ⟨h1, h2⟩ := hx c (by simp)
    simp only [List.cons_append, matchParen, h1, h2, if_neg, if_false]
    exact ih s (fun d hd => hx d (by simp [hd]))

theorem splitFuel_cons_some_sub {c : Char} {rest after : List Char}
    (h : trySplit c rest = some after) (f : Nat) (acc : List Char) (hf : 1 ≤ f) :
    splitFuel f (c :: rest) acc = acc.reverse :: splitFuel (f - 1) after [] := by
  cases f with
  | zero => omega
  | succ f' => simpa using splitFuel_cons_some h f' acc

theorem trySplit_space_paren {x s : List Char} (hx : ∀ c ∈ x, c ≠ ')' ∧ c ≠ '\n') :
    trySplit ' ' ('(' :: (x ++ ')' :: s)) = some s := by
  have hsp : isPySpace ' ' = true := by decide
  simp only [trySplit, hsp, if_pos, if_true]
  exact matchParen_through x s hx

/-- Effect of the split on a fragment followed by one parenthesized
group `A (x)...`: the fragment before the group is emitted and scanning
resumes after the `)`. -/
theorem splitFuel_group (A x s acc : List Char) (f : Nat)
    (hA : ∀ c ∈ A, c ≠ '(') (hx : ∀ c ∈ x, c ≠ ')' ∧ c ≠ '\n')
    (hf : A.length + x.length + s.length + 3 ≤ f) :
    splitFuel f (A ++ ' ' :: '(' :: (x ++ ')' :: s)) acc =
      (acc.reverse ++ A) :: splitFuel s.length s [] := by
  rw [splitFuel_scan A hA (' ' :: '(' :: (x ++ ')' :: s)) acc f
    (by simp only [List.length_cons, List.length_append]; omega) (by simp)]
  rw [splitFuel_cons_some_sub (trySplit_space_paren hx) (f - A.length) (A.reverse ++ acc)
    (by omega)]
  rw [splitFuel_congr s.length (f - A.length - 1) s.length s []
    (le_refl _) (by omega) (le_refl _)]
  simp

/-- Shape of the split on a two-group input `A (x) B (y)`: the pattern
matches exactly at the two annotations, producing the fragments `A`,
`" " ++ B` and `""`. -/
theorem pySplit_two_groups (A B x y : List Char)
    (hA : ∀ c ∈ A, c ≠ '(') (hB : ∀ c ∈ B, c ≠ '(') (hBne : B ≠ [])
    (hx : ∀ c ∈ x, c ≠ ')' ∧ c ≠ '\n') (hy : ∀ c ∈ y, c ≠ ')' ∧ c ≠ '\n') :
    pySplit (A ++ ' ' :: '(' :: (x ++ ')' :: ' ' :: (B ++ ' ' :: '(' :: (y ++ [')'])))) =
      [A, ' ' :: B, []] := by
  rw [pySplit, splitFuel_group A x (' ' :: (B ++ ' ' :: '(' :: (y ++ [')']))) [] _ hA hx
    (by simp only [List.length_cons, List.length_append]; omega)]
  have hhead1 : (B ++ ' ' :: '(' :: (y ++ [')'])).head? ≠ some '(' := by
    cases B with
    | nil => exact absurd rfl hBne
    | cons b B' => simpa using hB b (by simp)
  have h2 : splitFuel (' ' :: (B ++ ' ' :: '(' :: (y ++ [')']))).length
      (' ' :: (B ++ ' ' :: '(' :: (y ++ [')']))) [] =
      splitFuel (B ++ ' ' :: '(' :: (y ++ [')'])).length (B ++ ' ' :: '(' :: (y ++ [')'])) [' '] :=
    splitFuel_cons_none (trySplit_none_head hhead1) (B ++ ' ' :: '(' :: (y ++ [')'])).length []
  rw [h2, show (' ' :: '(' :: (y ++ [')']) : List Char) = ' ' :: '(' :: (y ++ ')' :: []) from rfl,
    splitFuel_group B y [] [' '] (B ++ ' ' :: '(' :: (y ++ ')' :: [])).length hB hy
      (by simp only [List.length_cons, List.length_append]; omega)]
  simp [splitFuel_nil]

/-! ## Properties of `[nationwide]` removal and stripping -/

theorem removeNationwide_cons {c : Char} {l : List Char} (h : c ≠ '[') :
    removeNationwide (c :: l) = c :: removeNationwide l := by
  have htake : ¬ ((c :: l).take 12 = nationwideChars) := by
    intro hEq
    rw [show (c :: l).take 12 = c :: l.take 11 from rfl, nationwideChars] at hEq
    exact h (List.head_eq_of_cons_eq hEq)
  show removeNatAux (l.length + 1) (c :: l) = c :: removeNatAux l.length l
  rw [removeNatAux, if_neg htake]

theorem dropWhile_idem (p : Char → Bool) (l : List Char) :
    List.dropWhile p (List.dropWhile p l) = List.dropWhile p l := by
  induction l with
  | nil => rfl
  | cons c rest ih =>
    by_cases h : p c
    · simp [List.dropWhile_cons, h, ih]
    · simp [List.dropWhile_cons, h]

theorem lstripPy_idem (l : List Char) : lstripPy (lstripPy l) = lstripPy l :=
  dropWhile_idem isPySpace l

theorem rstripPy_idem (l : List Char) : rstripPy (rstripPy l) = rstripPy l := by
  simp [rstripPy, List.reverse_reverse, dropWhile_idem]

theorem rstripPy_cons_of_notSpace {c : Char} {l : List Char} (h : isPySpace c = false) :
    rstripPy (c :: l) = c :: rstripPy l := by
  simp only [rstripPy, List.reverse_cons, List.dropWhile_append]
  by_cases he : (List.dropWhile isPySpace l.reverse).isEmpty
  · simp [he, List.dropWhile_cons, h, List.isEmpty_iff.mp he]
  · simp [he]

theorem rstripPy_cons_of_ne {c : Char} {l : List Char} (h : rstripPy l ≠ []) :
    rstripPy (c :: l) = c :: rstripPy l := by
  have he : ¬ (List.dropWhile isPySpace l.reverse).isEmpty := by
    intro hcon
    exact h (by simp [rstripPy, List.isEmpty_iff.mp hcon])
  simp only [rstripPy, List.reverse_cons, List.dropWhile_append]
  simp [he]

theorem rstripPy_eq_nil_iff {l : List Char} : rstripPy l = [] ↔ ∀ c ∈ l, isPySpace c := by
  rw [rstripPy]
  simp [List.dropWhile_eq_nil_iff]

theorem lstripPy_rstripPy (l : List Char) : lstripPy (rstripPy l) = rstripPy (lstripPy l) := by
  induction l with
  | nil => rfl
  | cons c l' ih =>
    by_cases hc : isPySpace c
    · rw [show lstripPy (c :: l') = lstripPy l' from by simp [lstripPy, List.dropWhile_cons, hc]]
      by_cases hr : rstripPy l' = []
      · have hall : ∀ d ∈ l', isPySpace d := rstripPy_eq_nil_iff.mp hr
        have h1 : rstripPy (c :: l') = [] := by
          rw [rstripPy_eq_nil_iff]
          intro d hd
          rw [List.mem_cons] at hd
          cases hd with
          | inl h => exact h ▸ hc
          | inr h => exact hall d h
        have h2 : lstripPy l' = [] := by
          rw [lstripPy, List.dropWhile_eq_nil_iff]
          exact hall
        rw [h1, h2]
        rfl
      · rw [rstripPy_cons_of_ne hr,
          show lstripPy (c :: rstripPy l') = lstripPy (rstripPy l') from by
            simp [lstripPy, List.dropWhile_cons, hc],
          ih]
    · rw [rstripPy_cons_of_notSpace (by simpa using hc),
        show lstripPy (c :: rstripPy l') = c :: rstripPy l' from by
          simp [lstripPy, List.dropWhile_cons, hc],
        show lstripPy (c :: l') = c :: l' from by simp [lstripPy, List.dropWhile_cons, hc],
        rstripPy_cons_of_notSpace (by simpa using hc)]

theorem pyStrip_idem (l : List Char) : pyStrip (pyStrip l) = pyStrip l := by
  simp only [pyStrip]
  rw [lstripPy_rstripPy (lstripPy l), rstripPy_idem, lstripPy_idem]

theorem pyStrip_cons_space {c : Char} {l : List Char} (h : isPySpace c = true) :
    pyStrip (c :: l) = pyStrip l := by
  simp [pyStrip, lstripPy, List.dropWhile_cons, h]

/-! ## Properties of the pipeline stages -/

theorem coerceYears_eq_none :
    ∀ l : List (String × String), coerceYears l = none ↔ ∃ p ∈ l, parseYear p.1 = none := by
  intro l
  induction l with
  | nil => simp [coerceYears]
  | cons p rest ih =>
    obtain ⟨y, c⟩ := p
    cases h : parseYear y with
    | none => simp [coerceYears, h]
    | some n => simp [coerceYears, h, Option.map_eq_none', ih]

theorem explodeRows_append (l1 l2 : List (String × String)) :
    explodeRows (l1 ++ l2) = explodeRows l1 ++ explodeRows l2 := by
  induction l1 with
  | nil => rfl
  | cons p rest ih =>
    obtain ⟨y, c⟩ := p
    simp [explodeRows, ih]

theorem filterPendingRows_idem (l : List (String × String)) :
    filterPendingRows (filterPendingRows l) = filterPendingRows l := by
  simp [filterPendingRows, List.filter_filter]

theorem mem_filterPendingRows_ne {l : List (String × String)} {p : String × String}
    (h : p ∈ filterPendingRows l) : p.1 ≠ "Pending" := by
  have h2 := (List.mem_filter.mp h).2
  simpa using h2

theorem catalog_find_eq {name code : String} (h : (name, code) ∈ pycountryCatalog) :
    pycountryCatalog.find? (fun e => e.1 == name) = some (name, code) := by
  simp only [pycountryCatalog, List.mem_cons, List.not_mem_nil, or_false,
    Prod.mk.injEq] at h
  rcases h with ⟨rfl, rfl⟩ | ⟨rfl, rfl⟩ | ⟨rfl, rfl⟩ | ⟨rfl, rfl⟩ | ⟨rfl, rfl⟩ | ⟨rfl, rfl⟩ <;>
    decide

/-! ## The claims -/

/-- Claim C1: end-to-end over the cleaning and resolution stages, the
synthetic table `[("2001","Netherlands"), ("Pending","Example Country")]`
yields exactly one resolved record
`{year: 2001, country: "Netherlands", iso_code: "NLD"}`; the `"Pending"`
row is absent. -/
theorem spec_C1 :
    pipeline [(some "2001", some "Netherlands"), (some "Pending", some "Example Country")] =
      some [⟨2001, "Netherlands", "NLD"⟩] := by
  decide

/-- Claim C2 (amended): for input `"A (x) B (y)"` the parser returns the
two tokens obtained from `A` and `B` by `"[nationwide]"` removal and
trimming, provided `A` and `B` are parenthesis-free with non-whitespace
content and the annotations `x`, `y` are parenthesis-free and contain no
newline (the regex `.` does not match a newline, so a newline inside an
annotation defeats the split); in particular
`"England and Wales[nationwide] (2014)"` maps to `["England and Wales"]`. -/
theorem spec_C2 :
    (∀ A B x y : List Char,
      (∀ c ∈ A, c ≠ '(' ∧ c ≠ ')') → (∀ c ∈ B, c ≠ '(' ∧ c ≠ ')') →
      pyStrip A ≠ [] → pyStrip B ≠ [] →
      (∀ c ∈ x, c ≠ '(' ∧ c ≠ ')' ∧ c ≠ '\n') → (∀ c ∈ y, c ≠ '(' ∧ c ≠ ')' ∧ c ≠ '\n') →
      get_countries_from_string
          ⟨A ++ ' ' :: '(' :: (x ++ ')' :: ' ' :: (B ++ ' ' :: '(' :: (y ++ [')'])))⟩ =
        [⟨pyStrip (removeNationwide A)⟩, ⟨pyStrip (removeNationwide B)⟩]) ∧
    get_countries_from_string "England and Wales[nationwide] (2014)" = ["England and Wales"] := by
  constructor
  · intro A B x y hA hB hsA hsB hx hy
    have hBne : B ≠ [] := by
      intro h
      subst h
      exact hsB rfl
    have hsplit := pySplit_two_groups A B x y (fun c hc => (hA c hc).1) (fun c hc => (hB c hc).1)
      hBne (fun c hc => ⟨(hx c hc).2.1, (hx c hc).2.2⟩)
      (fun c hc => ⟨(hy c hc).2.1, (hy c hc).2.2⟩)
    rw [get_countries_from_string,
      show (String.mk (A ++ ' ' :: '(' :: (x ++ ')' :: ' ' :: (B ++ ' ' :: '(' :: (y ++ [')']))))).data
        = A ++ ' ' :: '(' :: (x ++ ')' :: ' ' :: (B ++ ' ' :: '(' :: (y ++ [')']))) from rfl,
      hsplit]
    have hspace : isPySpace ' ' = true := by decide
    have hsB' : pyStrip (' ' :: B) ≠ [] := by
      rw [pyStrip_cons_space hspace]
      exact hsB
    rw [List.filter_cons_of_pos (by simpa using hsA),
      List.filter_cons_of_pos (by simpa using hsB'),
      List.filter_cons_of_neg (by decide), List.filter_nil,
      List.map_cons, List.map_cons, List.map_nil,
      removeNationwide_cons (show ' ' ≠ '[' by decide), pyStrip_cons_space hspace]
  · decide

/-- Claim C2 counterexample: with `A = "A"`, `x = "\n"`, `B = "B"`,
`y = "y"` — all parenthesis-free, `A` and `B` non-empty — the parser
does not return `["A", "B"]`: the newline inside the first annotation
prevents the pattern from matching there. -/
theorem spec_C2_cex : get_countries_from_string "A (\n) B (y)" ≠ ["A", "B"] := by
  decide

/-- Claim C2 witness: the amended statement instantiated at
`"Spain (2005) Canada (2005)"`. -/
theorem spec_C2_witness :
    get_countries_from_string "Spain (2005) Canada (2005)" = ["Spain", "Canada"] := by
  have h := spec_C2.1 "Spain".data "Canada".data "2005".data "2005".data
    (by decide) (by decide) (by decide) (by decide) (by decide) (by decide)
  exact h

/-- Claim C3 (amended): every token the parser returns is trimmed
(equal to its own strip), and the empty input yields no tokens; however
a token may be empty, because the emptiness check happens on the
fragment before `"[nationwide]"` removal: the input `"[nationwide]"`
yields the single token `""`. -/
theorem spec_C3 :
    (∀ (s t : String), t ∈ get_countries_from_string s → t.data = pyStrip t.data) ∧
    get_countries_from_string "" = [] ∧
    get_countries_from_string "[nationwide]" = [""] := by
  refine ⟨?_, by decide, by decide⟩
  intro s t ht
  rw [get_countries_from_string] at ht
  obtain ⟨f, hf, rfl⟩ := List.mem_map.mp ht
  exact (pyStrip_idem (removeNationwide f)).symm

/-- Claim C3 counterexample: the parser can return an empty token — the
fragment `"[nationwide]"` passes the non-emptiness filter (checked
before tag removal) and then becomes empty. -/
theorem spec_C3_cex : "" ∈ get_countries_from_string "[nationwide]" := by
  decide

/-- Claim C3 witness: the trimming invariant instantiated at the token
`"Spain"` of `"Spain (2005)"`. -/
theorem spec_C3_witness : ("Spain" : String).data = pyStrip ("Spain" : String).data :=
  spec_C3.1 "Spain (2005)" "Spain" (by decide)

/-- Claim C4: the Row Expander yields one record per extracted token
with the period copied unchanged, preserving document order and token
order; in particular `("2005", "Spain (2005) Portugal (2010)")` yields
exactly `{2005, Spain}` then `{2005, Portugal}`. -/
theorem spec_C4 :
    (∀ y c : String, explodeRows [(y, c)] = (get_countries_from_string c).map (fun t => (y, t))) ∧
    (∀ l1 l2 : List (String × String),
      explodeRows (l1 ++ l2) = explodeRows l1 ++ explodeRows l2) ∧
    clean_same_sex_marriage_data [(some "2005", some "Spain (2005) Portugal (2010)")] =
      some [⟨2005, "Spain"⟩, ⟨2005, "Portugal"⟩] := by
  refine ⟨?_, explodeRows_append, by decide⟩
  intro y c
  simp [explodeRows]

/-- Claim C5: `"Pending"` rows are dropped before integer coercion (so
prepending a `"Pending"` row never changes the result), and the coercion
fails with `FormatError` iff some remaining period value is non-numeric. -/
theorem spec_C5 : ∀ rows : List (Option String × Option String),
    (clean_same_sex_marriage_data rows = none ↔
      ∃ p ∈ filterPendingRows (aliasRows (explodeRows (dropnaRows rows))),
        parseYear p.1 = none) ∧
    clean_same_sex_marriage_data ((some "Pending", some "Example Country") :: rows) =
      clean_same_sex_marriage_data rows := by
  intro rows
  constructor
  · exact coerceYears_eq_none _
  · have htok : get_countries_from_string "Example Country" = ["Example Country"] := by decide
    have halias : aliasCountry "Example Country" = "Example Country" := by decide
    rw [clean_same_sex_marriage_data, clean_same_sex_marriage_data]
    apply congrArg
    simp [dropnaRows, explodeRows, htok, halias, aliasRows, filterPendingRows,
      List.filter_append]

/-- Claim C6: the Code Resolver returns the fixed ISO-3 code on an exact
catalog match and `none` on a lookup miss, without raising; in
particular `"Canada"` resolves to `"CAN"`. -/
theorem spec_C6 :
    (∀ name code : String, (name, code) ∈ pycountryCatalog →
      get_iso_code_from_country name = some code) ∧
    (∀ name : String, (∀ e ∈ pycountryCatalog, e.1 ≠ name) →
      get_iso_code_from_country name = none) ∧
    get_iso_code_from_country "Canada" = some "CAN" := by
  refine ⟨?_, ?_, by decide⟩
  · intro name code h
    rw [get_iso_code_from_country, catalog_find_eq h]
    rfl
  · intro name h
    rw [get_iso_code_from_country,
      List.find?_eq_none.mpr (fun e he => by simpa using h e he)]
    rfl

/-- Claim C6 witness: `"Canada"` is an exact catalog match resolving to
`"CAN"`, and `"Example Country"` is absent from the catalog and
resolves to `none`. -/
theorem spec_C6_witness :
    get_iso_code_from_country "Canada" = some "CAN" ∧
    get_iso_code_from_country "Example Country" = none :=
  ⟨spec_C6.1 "Canada" "CAN" (by decide), spec_C6.2.1 "Example Country" (by decide)⟩

/-- Claim C7: the manual alias substitution is applied to the country
field before code resolution: `"Taiwan"` becomes
`"Taiwan, Province of China"` and `"England and Wales"` becomes
`"United Kingdom"` prior to the ISO lookup; end to end, a `"Taiwan"` row
resolves to `"TWN"` even though `"Taiwan"` itself is not a catalog
name. -/
theorem spec_C7 :
    (∀ (l : List (String × String)) (p : String × String), p ∈ l → p.2 = "Taiwan" →
      (p.1, "Taiwan, Province of China") ∈ aliasRows l) ∧
    (∀ (l : List (String × String)) (p : String × String), p ∈ l → p.2 = "England and Wales" →
      (p.1, "United Kingdom") ∈ aliasRows l) ∧
    pipeline [(some "2019", some "Taiwan")] =
      some [⟨2019, "Taiwan, Province of China", "TWN"⟩] ∧
    get_iso_code_from_country "Taiwan" = none := by
  refine ⟨?_, ?_, by decide, by decide⟩
  · intro l p hp h2
    have ha : aliasCountry p.2 = "Taiwan, Province of China" := by
      rw [h2]
      decide
    exact List.mem_map.mpr ⟨p, hp, show (p.1, aliasCountry p.2) = _ by rw [ha]⟩
  · intro l p hp h2
    have ha : aliasCountry p.2 = "United Kingdom" := by
      rw [h2]
      decide
    exact List.mem_map.mpr ⟨p, hp, show (p.1, aliasCountry p.2) = _ by rw [ha]⟩

/-- Claim C7 witness: the alias membership statements instantiated at
concrete one-row tables. -/
theorem spec_C7_witness :
    ("2019", "Taiwan, Province of China") ∈ aliasRows [("2019", "Taiwan")] ∧
    ("2014", "United Kingdom") ∈ aliasRows [("2014", "England and Wales")] :=
  ⟨spec_C7.1 [("2019", "Taiwan")] ("2019", "Taiwan") (by decide) rfl,
   spec_C7.2.1 [("2014", "England and Wales")] ("2014", "England and Wales") (by decide) rfl⟩

/-- Claim C8 (amended): the diagnostic list of unmatched country names
is sorted and is a permutation of the raw multiset of unmatched names —
it is NOT deduplicated: a name unmatched in several rows appears
several times. -/
theorem spec_C8 : ∀ l : List ExpandedRecord,
    List.Sorted (fun a b : String => a ≤ b) (unmatched_countries_str l) ∧
    List.Perm (unmatched_countries_str l)
      ((l.map ExpandedRecord.country).filter (fun c => (get_iso_code_from_country c).isNone)) := by
  intro l
  exact ⟨List.sorted_insertionSort _ _, List.perm_insertionSort _ _⟩

/-- Claim C8 counterexample: two rows with the same unmatched name
`"Foo"` produce the diagnostic list `["Foo", "Foo"]` — each unmatched
name does not appear exactly once. -/
theorem spec_C8_cex :
    unmatched_countries_str [⟨2001, "Foo"⟩, ⟨2001, "Foo"⟩] = ["Foo", "Foo"] ∧
    ¬ (unmatched_countries_str [⟨2001, "Foo"⟩, ⟨2001, "Foo"⟩]).Nodup := by
  have hf : (([⟨2001, "Foo"⟩, ⟨2001, "Foo"⟩] : List ExpandedRecord).map
      ExpandedRecord.country).filter (fun c => (get_iso_code_from_country c).isNone) =
      ["Foo", "Foo"] := by decide
  have h1 : unmatched_countries_str [⟨2001, "Foo"⟩, ⟨2001, "Foo"⟩] = ["Foo", "Foo"] := by
    rw [unmatched_countries_str, hf]
    simp [List.insertionSort, List.orderedInsert]
  refine ⟨h1, ?_⟩
  rw [h1]
  simp

/-- Claim C9: the `"Pending"` sentinel filter is idempotent, and no
record with period `"Pending"` survives to the coercion stage of the
Cleaner. -/
theorem spec_C9 :
    (∀ l : List (String × String),
      filterPendingRows (filterPendingRows l) = filterPendingRows l) ∧
    (∀ (rows : List (Option String × Option String)) (p : String × String),
      p ∈ filterPendingRows (aliasRows (explodeRows (dropnaRows rows))) → p.1 ≠ "Pending") :=
  ⟨filterPendingRows_idem, fun _ _ h => mem_filterPendingRows_ne h⟩

/-- Claim C9 witness: the no-`"Pending"` property instantiated at a
concrete one-row table. -/
theorem spec_C9_witness : (("2001", "Netherlands") : String × String).1 ≠ "Pending" :=
  spec_C9.2 [(some "2001", some "Netherlands")] ("2001", "Netherlands") (by decide)

/-- Claim C10: the cleaning and resolution functions mutate the
DataFrame passed to them: after `clean_same_sex_marriage_data` the
caller's object has lost its `NaN` rows and its country cells hold
token lists instead of the original strings, and after
`add_iso_code_to_data` (whose return value is the argument object) the
rows with unmatched countries are gone. -/
theorem spec_C10 :
    (clean_caller_state [(some "2001", some "Netherlands"), (none, none)]).length ≠
      [(some "2001", some "Netherlands"), ((none : Option String), (none : Option String))].length ∧
    clean_caller_state [(some "2001", some "Netherlands")] =
      [(some "2001", some ["Netherlands"])] ∧
    (add_iso_code_to_data [⟨2001, "Netherlands"⟩, ⟨2001, "Example Country"⟩]).length ≠
      ([⟨2001, "Netherlands"⟩, ⟨2001, "Example Country"⟩] : List ExpandedRecord).length := by
  refine ⟨by decide, by decide, by decide⟩

end CreatePlot
